import Mathlib

/-!
Shallow embedding of the HotStock stock-picking competition server
(index.ts, src/db.ts, src/yahoo.ts). Prices and percent changes are
modelled as rationals, timestamps as integers (milliseconds), SQLite
integer flags as integers, and nullable SQL columns as Option. The
price source adapter is an explicit oracle argument.
-/

namespace HotStock

/-- Row of the competitions table. Timestamps are abstract integral
instants ordered like the date strings the code compares. -/
structure Competition where
  pick_window_start : Int
  pick_window_end : Int
  backfill_mode : Int
  finalized : Int
deriving DecidableEq, Repr

/-- Row of the portfolio_stocks table (the columns the core logic reads). -/
structure PortfolioStock where
  ticker : String
  baseline_price : Option ℚ
  current_price : Option ℚ
  percent_change : Option ℚ
deriving DecidableEq, Repr

/-- From index.ts isCompetitionLocked: a backfill competition is locked
exactly when finalized === 1; otherwise locked when now is past the
pick window end. The JS truthiness test on the numeric backfill_mode
column is the inequality with 0. -/
def isCompetitionLocked (nowMs : Int) (c : Competition) : Bool :=
  if c.backfill_mode ≠ 0 then decide (c.finalized = 1)
  else decide (c.pick_window_end < nowMs)

/-- JS truthiness of a nullable numeric value: null and 0 are falsy. -/
def jsTruthyNum : Option ℚ → Bool
  | none => false
  | some v => decide (v ≠ 0)

/-- From index.ts join and edit handlers: the inline expression
baselinePrice and currentPrice truthy ? ((current - baseline) / baseline) * 100 : 0.
It yields the number 0, never null, when either input is null or zero. -/
def joinPercentChange (baselinePrice currentPrice : Option ℚ) : ℚ :=
  if jsTruthyNum baselinePrice && jsTruthyNum currentPrice then
    ((currentPrice.getD 0 - baselinePrice.getD 0) / baselinePrice.getD 0) * 100
  else 0

/-- Following the words of the spec, section 4.1: stockPercentChange
returns (current - baseline) / baseline * 100 and signals unknown
(null) when baseline is null, baseline is zero, or current is null.
This definition exists to be compared with the code; it is not in the
source. -/
def specStockPercentChange : Option ℚ → Option ℚ → Option ℚ
  | some b, some c => if b = 0 then none else some (((c - b) / b) * 100)
  | _, _ => none

/-- SQL AVG over a list of non-null values: NULL on the empty set,
otherwise the arithmetic mean. -/
def sqlAvg (xs : List ℚ) : Option ℚ :=
  if xs.isEmpty then none else some (xs.sum / (xs.length : ℚ))

/-- From index.ts updateParticipantAggregate: SELECT AVG(percent_change)
FROM portfolio_stocks WHERE participant_id = ? AND percent_change IS NOT NULL,
stored into participants.percent_change. -/
def updateParticipantAggregate (stocks : List PortfolioStock) : Option ℚ :=
  sqlAvg (stocks.filterMap PortfolioStock.percent_change)

/-- Portfolio stock as the spec describes it in section 4.1, with an
explicit share count (the shipped schema stores no share count; the
spec default of one share per stock applies when none is given). -/
structure SpecStock where
  shares : ℚ
  baselinePrice : Option ℚ
  currentPrice : Option ℚ
  percentChange : ℚ
deriving DecidableEq, Repr

/-- Following the words of the spec, section 4.1: total initial
investment, a null baseline contributing 0. -/
def specTotalInvestment (stocks : List SpecStock) : ℚ :=
  (stocks.map (fun s => s.shares * s.baselinePrice.getD 0)).sum

/-- Following the words of the spec, section 4.1: the investment
weighted percent change, falling back to the unweighted mean when the
total investment is 0. This definition exists to be compared with the
code; it is not in the source. -/
def specWeightedPercentChange (stocks : List SpecStock) : ℚ :=
  let total := specTotalInvestment stocks
  if total = 0 then (stocks.map SpecStock.percentChange).sum / (stocks.length : ℚ)
  else (stocks.map (fun s => s.shares * s.baselinePrice.getD 0 / total * s.percentChange)).sum

/-- Error outcomes of the HTTP handlers (each corresponds to one of the
JSON error responses of index.ts). -/
inductive ApiError
  | missingFields
  | portfolioEmpty
  | portfolioTooLarge
  | invalidName
  | invalidTickerFormat
  | duplicateTickers
  | notFound
  | locked
  | nameTaken
  | invalidTicker (t : String)
  | priceUnavailable (t : String)
  | invalidDate
  | endBeforeStart
  | startInPast
deriving DecidableEq, Repr

/-- ASCII uppercase of one character, modelling the effect of the JS
toUpperCase call on the ticker strings the handlers accept. -/
def jsCharUpper (c : Char) : Char :=
  if 'a' ≤ c ∧ c ≤ 'z' then Char.ofNat (c.toNat - 32) else c

/-- ASCII lowercase of one character, modelling the JS toLowerCase
call used for the case-insensitive duplicate name check. -/
def jsCharLower (c : Char) : Char :=
  if 'A' ≤ c ∧ c ≤ 'Z' then Char.ofNat (c.toNat + 32) else c

/-- The JS String trim call: strip leading and trailing whitespace. -/
def jsTrim (s : String) : String :=
  String.mk
    (((s.data.dropWhile Char.isWhitespace).reverse.dropWhile Char.isWhitespace).reverse)

/-- The JS String toUpperCase call, on the ASCII range. -/
def jsToUpper (s : String) : String := String.mk (s.data.map jsCharUpper)

/-- The JS String toLowerCase call, on the ASCII range. -/
def jsToLower (s : String) : String := String.mk (s.data.map jsCharLower)

/-- Fueled scanner for the regex replace of tag-like segments in
validateStringInput: a segment from a left angle bracket to the next
right angle bracket, inclusive, is dropped; a left angle bracket with
no later right angle bracket is kept verbatim. The fuel is the input
length, which always suffices. -/
def stripTagsFuel : Nat → List Char → List Char
  | 0, s => s
  | _ + 1, [] => []
  | fuel + 1, ch :: rest =>
    if ch = '<' then
      match rest.dropWhile (fun x => x ≠ '>') with
      | [] => ch :: stripTagsFuel fuel rest
      | _ :: after => stripTagsFuel fuel after
    else ch :: stripTagsFuel fuel rest

/-- From index.ts validateStringInput, sanitization step. -/
def stripTags (s : String) : String :=
  String.mk (stripTagsFuel s.data.length s.data)

/-- From index.ts validateStringInput: trim, reject empty, reject over
the length bound, strip tag-like segments. The distinct error
messages of the source are collapsed into the none result. -/
def validateStringInput (value : String) (maxLength : Nat) : Option String :=
  let trimmed := jsTrim value
  if trimmed.length = 0 then none
  else if trimmed.length > maxLength then none
  else some (stripTags trimmed)

/-- From the join and edit handlers: validate each ticker string and
uppercase it; the first invalid ticker aborts with a 400 response. -/
def sanitizeTickers : List String → Except ApiError (List String)
  | [] => .ok []
  | t :: ts =>
    match validateStringInput t 10 with
    | none => .error .invalidTickerFormat
    | some s =>
      match sanitizeTickers ts with
      | .error e => .error e
      | .ok rest => .ok (jsToUpper s :: rest)

instance {e a : Type} [DecidableEq e] [DecidableEq a] : DecidableEq (Except e a) :=
  fun x y =>
  match x, y with
  | .ok u, .ok v =>
    if h : u = v then isTrue (by rw [h])
    else isFalse (by intro hh; cases hh; exact h rfl)
  | .error u, .error v =>
    if h : u = v then isTrue (by rw [h])
    else isFalse (by intro hh; cases hh; exact h rfl)
  | .ok _, .error _ => isFalse (by intro h; cases h)
  | .error _, .ok _ => isFalse (by intro h; cases h)

/-- The price source adapter (src/yahoo.ts) as a pure oracle: current
price by ticker, historical price by ticker and date, either may be
unknown. -/
structure PriceOracle where
  current : String → Option ℚ
  historical : String → Int → Option ℚ

/-- The stockData entries built by the join handler and the rows the
edit handler inserts into portfolio_stocks. The percent change column
is always bound to a number by these handlers, never to null. -/
structure StockData where
  ticker : String
  baselinePrice : Option ℚ
  currentPrice : Option ℚ
  percentChange : ℚ
deriving DecidableEq, Repr

/-- Row inserted into the participants table by the join handler. -/
structure ParticipantRow where
  name : String
  ticker : String
  baseline_price : Option ℚ
  current_price : Option ℚ
  percent_change : ℚ
deriving DecidableEq, Repr

/-- Observable outcome of a join request: HTTP result, number of
price adapter invocations, and the rows persisted. -/
structure JoinOutcome where
  result : Except ApiError Unit
  adapterCalls : Nat
  insertedParticipant : Option ParticipantRow
  insertedStocks : List StockData
deriving DecidableEq, Repr

/-- From the join and edit handlers: validateTicker(t) for each ticker
in turn; validateTicker calls fetchPrice and succeeds when the price
is non-null. Counts one adapter invocation per call. -/
def validateTickersWithAdapter (oracle : PriceOracle) :
    List String → Except ApiError Unit × Nat
  | [] => (.ok (), 0)
  | t :: ts =>
    if (oracle.current t).isSome then
      let r := validateTickersWithAdapter oracle ts
      (r.1, r.2 + 1)
    else (.error (.invalidTicker t), 1)

/-- From the join handler price loop: in backfill mode the baseline is
the historical price at the window start and a null lookup aborts the
request; in live mode baseline equals the freshly fetched current
price. Returns the stockData list and the adapter invocation count. -/
def fetchJoinStockData (oracle : PriceOracle) (comp : Competition) :
    List String → Except ApiError (List StockData) × Nat
  | [] => (.ok [], 0)
  | t :: ts =>
    if comp.backfill_mode ≠ 0 then
      match oracle.historical t comp.pick_window_start with
      | none => (.error (.priceUnavailable t), 1)
      | some b =>
        let c := oracle.current t
        let r := fetchJoinStockData oracle comp ts
        (r.1.map (fun rest => ⟨t, some b, c, joinPercentChange (some b) c⟩ :: rest), r.2 + 2)
    else
      let c := oracle.current t
      let r := fetchJoinStockData oracle comp ts
      (r.1.map (fun rest => ⟨t, c, c, joinPercentChange c c⟩ :: rest), r.2 + 1)

/-- From index.ts POST join: the full request pipeline after the
framework has parsed the body. The competition lookup is abstracted
to an optional row, the duplicate-name query to the list of existing
lowercased names. -/
def joinHandler (oracle : PriceOracle) (nowMs : Int) (compOpt : Option Competition)
    (existingNamesLower : List String) (name : String) (tickerList : List String) :
    JoinOutcome :=
  if name = "" ∨ tickerList = [] then ⟨.error .missingFields, 0, none, []⟩
  else if tickerList.length > 10 then ⟨.error .portfolioTooLarge, 0, none, []⟩
  else
    match validateStringInput name 50 with
    | none => ⟨.error .invalidName, 0, none, []⟩
    | some sanitizedName =>
      match sanitizeTickers tickerList with
      | .error e => ⟨.error e, 0, none, []⟩
      | .ok sanitizedTickers =>
        if ¬ sanitizedTickers.Nodup then ⟨.error .duplicateTickers, 0, none, []⟩
        else
          match compOpt with
          | none => ⟨.error .notFound, 0, none, []⟩
          | some comp =>
            if isCompetitionLocked nowMs comp then ⟨.error .locked, 0, none, []⟩
            else if existingNamesLower.contains (jsToLower sanitizedName) then
              ⟨.error .nameTaken, 0, none, []⟩
            else
              match validateTickersWithAdapter oracle sanitizedTickers with
              | (.error e, n) => ⟨.error e, n, none, []⟩
              | (.ok _, n) =>
                match fetchJoinStockData oracle comp sanitizedTickers with
                | (.error e, m) => ⟨.error e, n + m, none, []⟩
                | (.ok stockData, m) =>
                  ⟨.ok (), n + m,
                    some ⟨sanitizedName,
                      (stockData.headD ⟨"", none, none, 0⟩).ticker,
                      (stockData.headD ⟨"", none, none, 0⟩).baselinePrice,
                      (stockData.headD ⟨"", none, none, 0⟩).currentPrice,
                      (stockData.map StockData.percentChange).sum /
                        (stockData.length : ℚ)⟩,
                    stockData⟩

/-- Observable outcome of an edit (PUT participant) request. Inserted
rows are persisted even when a later iteration of the insert loop
fails, because the source runs each INSERT inside the loop. -/
structure EditOutcome where
  result : Except ApiError Unit
  adapterCalls : Nat
  insertedStocks : List StockData
  removedTickers : List String
deriving DecidableEq, Repr

/-- From index.ts PUT participant, price loop over the tickers to add.
Backfill mode: historical baseline, abort on null. Live mode:
historical baseline with fallback to the current price when null.
Each iteration inserts its row before the next iteration runs. -/
def editInsertLoop (oracle : PriceOracle) (backfill : Bool) (startDate : Int) :
    List String → Except ApiError Unit × Nat × List StockData
  | [] => (.ok (), 0, [])
  | t :: ts =>
    if backfill then
      match oracle.historical t startDate with
      | none => (.error (.priceUnavailable t), 1, [])
      | some b =>
        let c := oracle.current t
        let row : StockData := ⟨t, some b, c, joinPercentChange (some b) c⟩
        let r := editInsertLoop oracle backfill startDate ts
        (r.1, r.2.1 + 2, row :: r.2.2)
    else
      match oracle.historical t startDate with
      | none =>
        let b := oracle.current t
        let c := oracle.current t
        let row : StockData := ⟨t, b, c, joinPercentChange b c⟩
        let r := editInsertLoop oracle backfill startDate ts
        (r.1, r.2.1 + 3, row :: r.2.2)
      | some b =>
        let c := oracle.current t
        let row : StockData := ⟨t, some b, c, joinPercentChange (some b) c⟩
        let r := editInsertLoop oracle backfill startDate ts
        (r.1, r.2.1 + 2, row :: r.2.2)

/-- Tail of the PUT participant pipeline once the tickers to add and
remove are known: adapter validation of the additions, then the
insert loop whose rows persist even on a mid-loop failure, then the
removals, which happen only on full success. -/
def editApplyChanges (oracle : PriceOracle) (comp : Competition)
    (toAdd toRemove : List String) : EditOutcome :=
  match validateTickersWithAdapter oracle toAdd with
  | (.error e, n) => ⟨.error e, n, [], []⟩
  | (.ok _, n) =>
    match editInsertLoop oracle (decide (comp.backfill_mode ≠ 0))
      comp.pick_window_start toAdd with
    | (.error e, m, rows) => ⟨.error e, n + m, rows, []⟩
    | (.ok _, m, rows) => ⟨.ok (), n + m, rows, toRemove⟩

/-- From index.ts PUT participant: the full pipeline after body
parsing. The participant lookup is abstracted to an optional pair of
its competition row and its current portfolio tickers. -/
def editHandler (oracle : PriceOracle) (nowMs : Int)
    (partOpt : Option (Competition × List String)) (tickerList : List String) :
    EditOutcome :=
  if tickerList = [] then ⟨.error .portfolioEmpty, 0, [], []⟩
  else if tickerList.length > 10 then ⟨.error .portfolioTooLarge, 0, [], []⟩
  else
    match sanitizeTickers tickerList with
    | .error e => ⟨.error e, 0, [], []⟩
    | .ok st =>
      if ¬ st.Nodup then ⟨.error .duplicateTickers, 0, [], []⟩
      else
        match partOpt with
        | none => ⟨.error .notFound, 0, [], []⟩
        | some (comp, currentTickers) =>
          if isCompetitionLocked nowMs comp then ⟨.error .locked, 0, [], []⟩
          else
            editApplyChanges oracle comp
              (st.filter (fun t => ! currentTickers.contains t))
              (currentTickers.filter (fun t => ! st.contains t))

/-- Row of portfolio_stocks as the refresh query selects it, together
with the columns the refresh loop writes. -/
structure PSRow where
  id : Nat
  participant_id : Nat
  ticker : String
  baseline_price : Option ℚ
  current_price : Option ℚ
  percent_change : Option ℚ
deriving DecidableEq, Repr

/-- Persistent and transient state of one competition as the refresh
code touches it: portfolio stock rows, participant aggregate column,
the append-only price history, and the transient last-refresh entry
of the process-wide price cache (none when absent). -/
structure CompState where
  stocks : List PSRow
  participants : List (Nat × Option ℚ)
  priceHistory : List (String × ℚ)
  lastRefresh : Option Int
deriving DecidableEq, Repr

/-- From the refresh loop body in index.ts refreshPricesIfNeeded: a
null fetch leaves the row untouched; a missing baseline is
bootstrapped to the fetched price with percent change 0; otherwise
current price and percent change are recomputed. -/
def refreshRow (oracle : PriceOracle) (row : PSRow) : PSRow :=
  match oracle.current row.ticker with
  | none => row
  | some price =>
    match row.baseline_price with
    | none =>
      { row with baseline_price := some price, current_price := some price,
                 percent_change := some 0 }
    | some b =>
      { row with current_price := some price,
                 percent_change := some ((price - b) / b * 100) }

/-- Participants collected into the participantsToUpdate set: those
owning at least one row whose fetch succeeded. -/
def refreshParticipantsToUpdate (oracle : PriceOracle) (rows : List PSRow) : List Nat :=
  ((rows.filter (fun row => (oracle.current row.ticker).isSome)).map
    PSRow.participant_id).dedup

/-- Price history samples appended by the loop, one per successful fetch. -/
def refreshHistory (oracle : PriceOracle) (rows : List PSRow) : List (String × ℚ) :=
  rows.filterMap (fun row => (oracle.current row.ticker).map (fun p => (row.ticker, p)))

/-- Rows of one participant, viewed as the aggregate query reads them. -/
def participantStocks (rows : List PSRow) (pid : Nat) : List PortfolioStock :=
  (rows.filter (fun r => r.participant_id = pid)).map
    (fun r => ⟨r.ticker, r.baseline_price, r.current_price, r.percent_change⟩)

/-- The 5 minute staleness TTL of the per-competition price cache. -/
def CACHE_TTL_MS : Int := 5 * 60 * 1000

/-- From index.ts refreshPricesIfNeeded: return untouched while the
cache entry is fresh (an absent entry reads as 0), otherwise fetch
every portfolio stock once, rewrite each row per refreshRow, append
history samples, recompute affected participant aggregates, and stamp
the cache with now unconditionally. The second component counts
price adapter invocations. -/
def refreshPricesIfNeeded (oracle : PriceOracle) (nowMs : Int) (st : CompState) :
    CompState × Nat :=
  let lastRefresh := st.lastRefresh.getD 0
  if nowMs - lastRefresh < CACHE_TTL_MS then (st, 0)
  else
    let updatedStocks := st.stocks.map (refreshRow oracle)
    let toUpdate := refreshParticipantsToUpdate oracle st.stocks
    let updatedParticipants := st.participants.map
      (fun p =>
        if toUpdate.contains p.1 then
          (p.1, updateParticipantAggregate (participantStocks updatedStocks p.1))
        else p)
    ({ stocks := updatedStocks,
       participants := updatedParticipants,
       priceHistory := st.priceHistory ++ refreshHistory oracle st.stocks,
       lastRefresh := some nowMs },
     st.stocks.length)

/-- Error outcomes of the finalize endpoint. -/
inductive FinalizeError
  | notBackfill
  | alreadyFinalized
  | emptyCompetition
deriving DecidableEq, Repr

/-- Outcome of the finalize endpoint: HTTP result, the competition row
afterwards, and the audit event actions appended. -/
structure FinalizeOutcome where
  result : Except FinalizeError Unit
  competition : Competition
  auditAppended : List String
deriving DecidableEq, Repr

/-- From index.ts POST finalize: reject non-backfill competitions
(JS falsiness of the numeric column), then already finalized ones
(JS truthiness), then competitions with zero participants; otherwise
set finalized to 1 and log a lock audit event. -/
def finalizeHandler (comp : Competition) (participantCount : Nat) : FinalizeOutcome :=
  if comp.backfill_mode = 0 then ⟨.error .notBackfill, comp, []⟩
  else if comp.finalized ≠ 0 then ⟨.error .alreadyFinalized, comp, []⟩
  else if participantCount = 0 then ⟨.error .emptyCompetition, comp, []⟩
  else ⟨.ok (), { comp with finalized := 1 }, ["lock"]⟩

/-- A date field of the create request body: absent (JS falsy), present
but unparsable (NaN), or a valid instant. -/
inductive DateInput
  | missing
  | invalid
  | valid (t : Int)
deriving DecidableEq, Repr

/-- Parsed value of a date field, none when absent or unparsable. -/
def DateInput.parsed : DateInput → Option Int
  | .valid t => some t
  | _ => none

/-- Outcome of the create-competition endpoint. -/
structure CreateOutcome where
  result : Except ApiError Unit
  insertedCompetition : Option Competition
deriving DecidableEq, Repr

/-- From index.ts POST competitions: missing-field check, name
validation, date parsing, end strictly after start, and the past
start date rejection that applies only when backfill_mode is not the
JSON literal true. The inserted row carries backfill_mode 1 exactly
when the strict equality held, and finalized 0. -/
def createCompetitionHandler (nowMs : Int) (name : String)
    (startInput endInput : DateInput) (backfillMode : Option Bool) : CreateOutcome :=
  if name = "" ∨ startInput = .missing ∨ endInput = .missing then
    ⟨.error .missingFields, none⟩
  else
    match validateStringInput name 100 with
    | none => ⟨.error .invalidName, none⟩
    | some _ =>
      match startInput.parsed, endInput.parsed with
      | none, _ => ⟨.error .invalidDate, none⟩
      | some _, none => ⟨.error .invalidDate, none⟩
      | some s, some e =>
        if e ≤ s then ⟨.error .endBeforeStart, none⟩
        else
          if ¬ (backfillMode = some true) ∧ s < nowMs then ⟨.error .startInPast, none⟩
          else ⟨.ok (), some ⟨s, e, if backfillMode = some true then 1 else 0, 0⟩⟩

/-- From index.ts GET competitions: the WHERE clause keeps competitions
whose pick window end is before now, plus finalized backfill ones.
Ordering and the participant count are omitted; the claim is about
membership. -/
def listCompetitionsQuery (nowMs : Int) (comps : List Competition) : List Competition :=
  comps.filter (fun c =>
    decide (c.pick_window_end < nowMs) ||
      (decide (c.backfill_mode = 1) && decide (c.finalized = 1)))

/-- The ValidationError bucket of the spec, section 7: malformed,
oversized or empty names and tickers, duplicate tickers, and a
portfolio size outside 1 to 10. -/
def isValidationError : Except ApiError Unit → Bool
  | .error .missingFields => true
  | .error .portfolioEmpty => true
  | .error .portfolioTooLarge => true
  | .error .invalidName => true
  | .error .invalidTickerFormat => true
  | .error .duplicateTickers => true
  | _ => false

/-! Theorems -/

/-- C3: for every competition, isLocked returns true exactly when
finalized is set if the competition is in backfill mode, independent
of the window timestamps and of the current time, and returns true
exactly when the current time is after pick_window_end if the
competition is in live mode, independent of the finalized flag. -/
theorem c3_isLocked_characterization (c : Competition) :
    (c.backfill_mode ≠ 0 → ∀ nowMs s e : Int,
      (isCompetitionLocked nowMs
          { c with pick_window_start := s, pick_window_end := e } = true
        ↔ c.finalized = 1)) ∧
    (c.backfill_mode = 0 → ∀ nowMs f : Int,
      (isCompetitionLocked nowMs { c with finalized := f } = true
        ↔ c.pick_window_end < nowMs)) := by
  constructor
  · intro hb nowMs s e
    simp [isCompetitionLocked, hb]
  · intro hb nowMs f
    simp [isCompetitionLocked, hb]

/-- Witness for C3 at concrete competitions. -/
theorem c3_isLocked_characterization_witness :
    isCompetitionLocked 0 ⟨5, 9, 1, 1⟩ = true ∧
    isCompetitionLocked 10 ⟨0, 5, 0, 0⟩ = true := by
  constructor
  · exact ((c3_isLocked_characterization ⟨1, 2, 1, 1⟩).1 (by decide) 0 5 9).mpr rfl
  · exact ((c3_isLocked_characterization ⟨0, 5, 0, 3⟩).2 rfl 10 0).mpr (by decide)

/-- C5: during a refresh that proceeds past the staleness check, every
row is rewritten by refreshRow, a row whose fetch is unknown is left
exactly as it was, and the last-refresh stamp is set to now no matter
how many fetches succeeded. -/
theorem c5_refresh_failed_fetch_untouched (oracle : PriceOracle) (nowMs : Int)
    (st : CompState) (hstale : CACHE_TTL_MS ≤ nowMs - st.lastRefresh.getD 0) :
    (refreshPricesIfNeeded oracle nowMs st).1.stocks =
      st.stocks.map (refreshRow oracle) ∧
    (∀ row : PSRow, oracle.current row.ticker = none → refreshRow oracle row = row) ∧
    (refreshPricesIfNeeded oracle nowMs st).1.lastRefresh = some nowMs := by
  have hcond : ¬ (nowMs - st.lastRefresh.getD 0 < CACHE_TTL_MS) := by omega
  refine ⟨?_, ?_, ?_⟩
  · simp [refreshPricesIfNeeded, hcond]
  · intro row h
    simp [refreshRow, h]
  · simp [refreshPricesIfNeeded, hcond]

/-- Witness for C5 with one stock whose fetch fails. -/
theorem c5_refresh_failed_fetch_untouched_witness :
    (refreshPricesIfNeeded ⟨fun _ => none, fun _ _ => none⟩ 300000
        ⟨[⟨1, 1, "A", some 1, some 1, some 0⟩], [(1, some 0)], [], none⟩).1.stocks =
      [⟨1, 1, "A", some 1, some 1, some 0⟩].map
        (refreshRow ⟨fun _ => none, fun _ _ => none⟩) ∧
    refreshRow ⟨fun _ => none, fun _ _ => none⟩ ⟨1, 1, "A", some 1, some 1, some 0⟩ =
      ⟨1, 1, "A", some 1, some 1, some 0⟩ ∧
    (refreshPricesIfNeeded ⟨fun _ => none, fun _ _ => none⟩ 300000
        ⟨[⟨1, 1, "A", some 1, some 1, some 0⟩], [(1, some 0)], [], none⟩).1.lastRefresh =
      some 300000 := by
  have h := c5_refresh_failed_fetch_untouched ⟨fun _ => none, fun _ _ => none⟩ 300000
    ⟨[⟨1, 1, "A", some 1, some 1, some 0⟩], [(1, some 0)], [], none⟩ (by decide)
  exact ⟨h.1, h.2.1 ⟨1, 1, "A", some 1, some 1, some 0⟩ rfl, h.2.2⟩

/-- C6: a refresh triggered while the cache entry is fresh performs
zero adapter calls and leaves the whole competition state, including
the last-refresh stamp, unchanged; anything else happens only when
now minus the last refresh is at least the TTL. -/
theorem c6_fresh_cache_short_circuit (oracle : PriceOracle) (nowMs : Int)
    (st : CompState) :
    (nowMs - st.lastRefresh.getD 0 < CACHE_TTL_MS →
      refreshPricesIfNeeded oracle nowMs st = (st, 0)) ∧
    (refreshPricesIfNeeded oracle nowMs st ≠ (st, 0) →
      CACHE_TTL_MS ≤ nowMs - st.lastRefresh.getD 0) := by
  constructor
  · intro h
    simp [refreshPricesIfNeeded, h]
  · intro h
    by_contra hlt
    push_neg at hlt
    exact h (by simp [refreshPricesIfNeeded, hlt])

/-- Witness for C6 at a concrete fresh cache entry. -/
theorem c6_fresh_cache_short_circuit_witness :
    refreshPricesIfNeeded ⟨fun _ => some 1, fun _ _ => some 1⟩ 100
        ⟨[⟨1, 1, "A", none, none, none⟩], [(1, none)], [], some 0⟩ =
      (⟨[⟨1, 1, "A", none, none, none⟩], [(1, none)], [], some 0⟩, 0) :=
  (c6_fresh_cache_short_circuit ⟨fun _ => some 1, fun _ _ => some 1⟩ 100
    ⟨[⟨1, 1, "A", none, none, none⟩], [(1, none)], [], some 0⟩).1 (by decide)

/-- C7: finalize rejects non-backfill competitions with NotBackfill,
already finalized ones with AlreadyFinalized, empty ones with
EmptyCompetition, and otherwise sets the finalized flag and appends a
lock audit event; it succeeds exactly when none of the three failure
conditions holds. -/
theorem c7_finalize_characterization (comp : Competition) (count : Nat) :
    (comp.backfill_mode = 0 →
      (finalizeHandler comp count).result = .error .notBackfill) ∧
    (comp.backfill_mode ≠ 0 → comp.finalized ≠ 0 →
      (finalizeHandler comp count).result = .error .alreadyFinalized) ∧
    (comp.backfill_mode ≠ 0 → comp.finalized = 0 → count = 0 →
      (finalizeHandler comp count).result = .error .emptyCompetition) ∧
    (comp.backfill_mode ≠ 0 → comp.finalized = 0 → count ≠ 0 →
      (finalizeHandler comp count).result = .ok () ∧
      (finalizeHandler comp count).competition.finalized = 1 ∧
      (finalizeHandler comp count).auditAppended = ["lock"]) ∧
    ((finalizeHandler comp count).result = .ok () ↔
      comp.backfill_mode ≠ 0 ∧ comp.finalized = 0 ∧ count ≠ 0) := by
  by_cases h1 : comp.backfill_mode = 0 <;>
    by_cases h2 : comp.finalized = 0 <;>
      by_cases h3 : count = 0 <;>
        simp [finalizeHandler, h1, h2, h3]

/-- Witness for C7 at a concrete successful finalize. -/
theorem c7_finalize_characterization_witness :
    (finalizeHandler ⟨0, 1, 1, 0⟩ 1).result = .ok () ∧
    (finalizeHandler ⟨0, 1, 1, 0⟩ 1).competition.finalized = 1 ∧
    (finalizeHandler ⟨0, 1, 1, 0⟩ 1).auditAppended = ["lock"] :=
  (c7_finalize_characterization ⟨0, 1, 1, 0⟩ 1).2.2.2.1 (by decide) rfl (by decide)

/-- Helper: the stored per-stock percent changes, and hence the stored
aggregate, do not depend on the baseline price column. -/
theorem filterMap_percent_change_set_baseline (g : PortfolioStock → Option ℚ) :
    ∀ stocks : List PortfolioStock,
      (stocks.map (fun s => { s with baseline_price := g s })).filterMap
        PortfolioStock.percent_change =
      stocks.filterMap PortfolioStock.percent_change := by
  intro stocks
  induction stocks with
  | nil => rfl
  | cons a as ih => simp [List.filterMap_cons, ih]

/-- C1 counterexample: a participant holding one share of a 100 stock
that gained 10 percent and one share of a 300 stock that gained 0
percent has total initial investment 400, the spec weighted change is
2.5 percent, but the code stores the unweighted mean 5 percent. -/
theorem c1_counterexample :
    specTotalInvestment
      [⟨1, some 100, some 110, 10⟩, ⟨1, some 300, some 300, 0⟩] = 400 ∧
    specWeightedPercentChange
      [⟨1, some 100, some 110, 10⟩, ⟨1, some 300, some 300, 0⟩] = 5 / 2 ∧
    updateParticipantAggregate
      [⟨"A", some 100, some 110, some 10⟩, ⟨"B", some 300, some 300, some 0⟩] =
      some 5 ∧
    some (specWeightedPercentChange
        [⟨1, some 100, some 110, 10⟩, ⟨1, some 300, some 300, 0⟩]) ≠
      updateParticipantAggregate
        [⟨"A", some 100, some 110, some 10⟩, ⟨"B", some 300, some 300, some 0⟩] := by
  refine ⟨?_, ?_, ?_, ?_⟩ <;>
    norm_num [specTotalInvestment, specWeightedPercentChange,
      updateParticipantAggregate, sqlAvg, List.filterMap]

/-- C1 amended: the stored aggregate percent change is the unweighted
arithmetic mean of the per-stock percent changes that are non-null,
and is invariant under arbitrary changes of the baseline prices, so
initial investments never weight it. -/
theorem c1_amended_unweighted_mean (stocks : List PortfolioStock)
    (h : stocks.filterMap PortfolioStock.percent_change ≠ []) :
    updateParticipantAggregate stocks =
      some ((stocks.filterMap PortfolioStock.percent_change).sum /
        ((stocks.filterMap PortfolioStock.percent_change).length : ℚ)) ∧
    ∀ g : PortfolioStock → Option ℚ,
      updateParticipantAggregate
        (stocks.map (fun s => { s with baseline_price := g s })) =
      updateParticipantAggregate stocks := by
  constructor
  · simp [updateParticipantAggregate, sqlAvg, List.isEmpty_iff, h]
  · intro g
    unfold updateParticipantAggregate
    rw [filterMap_percent_change_set_baseline]

/-- Witness for C1 amended at a one-stock portfolio. -/
theorem c1_amended_unweighted_mean_witness :
    ([⟨"A", some 1, some 2, some 10⟩] : List PortfolioStock).filterMap
      PortfolioStock.percent_change ≠ [] ∧
    updateParticipantAggregate [⟨"A", some 1, some 2, some 10⟩] =
      some ((([⟨"A", some 1, some 2, some 10⟩] : List PortfolioStock).filterMap
          PortfolioStock.percent_change).sum /
        ((([⟨"A", some 1, some 2, some 10⟩] : List PortfolioStock).filterMap
          PortfolioStock.percent_change).length : ℚ)) :=
  ⟨by decide, (c1_amended_unweighted_mean _ (by decide)).1⟩

/-- Oracle for the C2 counterexample: every current price is 100 and
every historical price is 0. -/
def oracleC2 : PriceOracle := ⟨fun _ => some 100, fun _ _ => some 0⟩

/-- Unlocked backfill competition used by the C2 counterexample. -/
def compC2 : Competition := ⟨0, 100, 1, 0⟩

/-- C2 counterexample: joining a backfill competition whose historical
baseline resolves to 0 succeeds and persists a stock whose percent
change column holds the number 0, while the spec says a zero baseline
must yield unknown, stored as null. -/
theorem c2_counterexample :
    (joinHandler oracleC2 50 (some compC2) [] "Bob" ["AAA"]).result = .ok () ∧
    (joinHandler oracleC2 50 (some compC2) [] "Bob" ["AAA"]).insertedStocks.map
      StockData.baselinePrice = [some 0] ∧
    (joinHandler oracleC2 50 (some compC2) [] "Bob" ["AAA"]).insertedStocks.map
      StockData.percentChange = [0] ∧
    specStockPercentChange (some 0) (some 100) = none := by
  refine ⟨by decide, by decide, by decide, by decide⟩

/-- C2 amended: the inline expression of the join and edit handlers
returns the formula only when baseline and current are both non-null
and non-zero, and returns the number 0, never null, when the baseline
is null or zero or the current price is null or zero. -/
theorem c2_amended_zero_not_null (b c : Option ℚ) :
    (∀ bv cv : ℚ, b = some bv → c = some cv → bv ≠ 0 → cv ≠ 0 →
      joinPercentChange b c = (cv - bv) / bv * 100) ∧
    ((b = none ∨ b = some 0 ∨ c = none ∨ c = some 0) →
      joinPercentChange b c = 0) := by
  constructor
  · rintro bv cv rfl rfl hb hc
    simp [joinPercentChange, jsTruthyNum, hb, hc]
  · rintro (rfl | rfl | rfl | rfl) <;> simp [joinPercentChange, jsTruthyNum]

/-- Witness for C2 amended at concrete prices. -/
theorem c2_amended_zero_not_null_witness :
    joinPercentChange (some 2) (some 3) = (3 - 2) / 2 * 100 ∧
    joinPercentChange none (some 5) = 0 :=
  ⟨(c2_amended_zero_not_null (some 2) (some 3)).1 2 3 rfl rfl
      (by norm_num) (by norm_num),
   (c2_amended_zero_not_null none (some 5)).2 (Or.inl rfl)⟩

/-- C9: creating a competition with a past start date fails and inserts
nothing unless backfill_mode is the literal true; with backfill_mode
true the insert happens for any start date provided the name is valid
and the end is strictly after the start. -/
theorem c9_backfill_past_start (nowMs : Int) (name : String) (s e : Int)
    (bf : Option Bool) :
    (bf ≠ some true → s < nowMs →
      (createCompetitionHandler nowMs name (.valid s) (.valid e) bf).result ≠
        .ok () ∧
      (createCompetitionHandler nowMs name
        (.valid s) (.valid e) bf).insertedCompetition = none) ∧
    (validateStringInput name 100 ≠ none → s < e →
      (createCompetitionHandler nowMs name
        (.valid s) (.valid e) (some true)).result = .ok () ∧
      (createCompetitionHandler nowMs name
        (.valid s) (.valid e) (some true)).insertedCompetition =
        some ⟨s, e, 1, 0⟩) := by
  constructor
  · intro hbf hs
    by_cases hn : name = ""
    · simp [createCompetitionHandler, hn]
    · cases hv : validateStringInput name 100 with
      | none =>
        simp [createCompetitionHandler, hn, hv, DateInput.parsed]
      | some v =>
        by_cases he : e ≤ s
        · simp [createCompetitionHandler, hn, hv, DateInput.parsed, he]
        · simp [createCompetitionHandler, hn, hv, DateInput.parsed, he, hbf, hs]
  · intro hname he
    have hn : name ≠ "" := by
      intro he
      exact hname (by rw [he]; decide)
    cases hv : validateStringInput name 100 with
    | none => exact absurd hv hname
    | some v =>
      have hle : ¬ e ≤ s := by omega
      simp [createCompetitionHandler, hn, hv, DateInput.parsed, hle]

/-- Witness for C9: a backfill creation with a past start succeeds. -/
theorem c9_backfill_past_start_witness :
    validateStringInput "A" 100 ≠ none ∧ (0 : Int) < 1 ∧
    (createCompetitionHandler 100 "A"
      (.valid 0) (.valid 1) (some true)).result = .ok () ∧
    (createCompetitionHandler 100 "A"
      (.valid 0) (.valid 1) (some true)).insertedCompetition = some ⟨0, 1, 1, 0⟩ :=
  ⟨by decide, by decide,
   (c9_backfill_past_start 100 "A" 0 1 (some true)).2 (by decide) (by decide)⟩

/-- C10 counterexample: an unfinalized backfill competition whose pick
window end lies in the past does appear in the listing. -/
theorem c10_counterexample :
    listCompetitionsQuery 10 [⟨0, 5, 1, 0⟩] = [⟨0, 5, 1, 0⟩] ∧
    (⟨0, 5, 1, 0⟩ : Competition).backfill_mode = 1 ∧
    (⟨0, 5, 1, 0⟩ : Competition).finalized = 0 := by
  refine ⟨by decide, rfl, rfl⟩

/-- C10 amended: the listing keeps exactly the competitions whose pick
window end is before now or which are finalized backfill ones; a live
competition whose window has not ended never appears, and an
unfinalized backfill competition appears exactly when its window end
is before now. -/
theorem c10_amended_listing (nowMs : Int) (comps : List Competition) :
    (∀ c : Competition, c ∈ listCompetitionsQuery nowMs comps ↔
      c ∈ comps ∧ (c.pick_window_end < nowMs ∨
        (c.backfill_mode = 1 ∧ c.finalized = 1))) ∧
    (∀ c : Competition, c.backfill_mode ≠ 1 → ¬ c.pick_window_end < nowMs →
      c ∉ listCompetitionsQuery nowMs comps) ∧
    (∀ c : Competition, c ∈ comps → c.backfill_mode = 1 → c.finalized ≠ 1 →
      (c ∈ listCompetitionsQuery nowMs comps ↔ c.pick_window_end < nowMs)) := by
  refine ⟨?_, ?_, ?_⟩
  · intro c
    simp [listCompetitionsQuery, List.mem_filter]
  · intro c h1 h2 hmem
    simp [listCompetitionsQuery, List.mem_filter, h1, h2] at hmem
  · intro c hc h1 h2
    simp [listCompetitionsQuery, List.mem_filter, hc, h1, h2]

/-- Witness for C10 amended at a concrete live competition whose
window has not ended. -/
theorem c10_amended_listing_witness :
    (⟨0, 50, 0, 0⟩ : Competition) ∉ listCompetitionsQuery 10 [⟨0, 50, 0, 0⟩] :=
  (c10_amended_listing 10 [⟨0, 50, 0, 0⟩]).2.1 ⟨0, 50, 0, 0⟩ (by decide) (by decide)

/-- Helper: the adapter-backed ticker validation loop only ever fails
with an invalidTicker error. -/
theorem validateTickersWithAdapter_error_shape (oracle : PriceOracle) :
    ∀ ts : List String, ∀ e : ApiError,
      (validateTickersWithAdapter oracle ts).1 = .error e →
      ∃ t, e = .invalidTicker t := by
  intro ts
  induction ts with
  | nil =>
    intro e h
    simp [validateTickersWithAdapter] at h
  | cons a as ih =>
    intro e h
    by_cases ha : (oracle.current a).isSome
    · simp only [validateTickersWithAdapter, ha, if_true] at h
      exact ih e h
    · simp only [validateTickersWithAdapter, ha, if_false] at h
      exact ⟨a, by injection h.symm⟩

/-- Helper: the live-mode branch of the edit insert loop never fails,
because a null historical price falls back to the current price. -/
theorem editInsertLoop_live_ok (oracle : PriceOracle) (startDate : Int) :
    ∀ ts : List String, (editInsertLoop oracle false startDate ts).1 = .ok () := by
  intro ts
  induction ts with
  | nil => rfl
  | cons a as ih =>
    cases ha : oracle.historical a startDate <;>
      simp [editInsertLoop, ha, ih]

/-- Helper: when the edit insert loop aborts with PriceUnavailable for
some ticker, that ticker has no historical price and none of the rows
the loop already inserted belongs to it. -/
theorem editInsertLoop_priceUnavailable (oracle : PriceOracle) (bf : Bool)
    (startDate : Int) :
    ∀ ts : List String, ∀ t : String,
      (editInsertLoop oracle bf startDate ts).1 = .error (.priceUnavailable t) →
      oracle.historical t startDate = none ∧
      ∀ row ∈ (editInsertLoop oracle bf startDate ts).2.2, row.ticker ≠ t := by
  cases bf with
  | false =>
    intro ts t h
    rw [editInsertLoop_live_ok] at h
    cases h
  | true =>
    intro ts
    induction ts with
    | nil =>
      intro t h
      simp [editInsertLoop] at h
    | cons a as ih =>
      intro t h
      cases ha : oracle.historical a startDate with
      | none =>
        simp only [editInsertLoop, ha] at h ⊢
        obtain rfl : a = t := by injection h with h1; injection h1
        exact ⟨ha, by simp⟩
      | some b =>
        simp only [editInsertLoop, ha] at h ⊢
        obtain ⟨hnone, hrows⟩ := ih t h
        refine ⟨hnone, ?_⟩
        intro row hrow
        rcases List.mem_cons.mp hrow with rfl | hmem
        · intro hticker
          have hat : a = t := hticker
          rw [hat, hnone] at ha
          cases ha
        · exact hrows row hmem

/-- Helper: any error outcome of the join handler persists neither a
participant row nor any portfolio stock row. -/
theorem joinHandler_ok_or_clean (oracle : PriceOracle) (nowMs : Int)
    (compOpt : Option Competition) (existingNamesLower : List String)
    (name : String) (tickerList : List String) :
    (joinHandler oracle nowMs compOpt existingNamesLower name tickerList).result =
      .ok () ∨
    ((joinHandler oracle nowMs compOpt existingNamesLower name
        tickerList).insertedParticipant = none ∧
     (joinHandler oracle nowMs compOpt existingNamesLower name
        tickerList).insertedStocks = []) := by
  unfold joinHandler
  repeat' split
  all_goals first
    | exact Or.inl rfl
    | exact Or.inr ⟨rfl, rfl⟩

/-- Helper: in backfill mode, if any requested ticker has no historical
price at the window start, the join price loop aborts with
PriceUnavailable for some such ticker. -/
theorem fetchJoinStockData_priceUnavailable (oracle : PriceOracle)
    (comp : Competition) (hbf : comp.backfill_mode ≠ 0) :
    ∀ ts : List String, ∀ t ∈ ts,
      oracle.historical t comp.pick_window_start = none →
      ∃ u, (fetchJoinStockData oracle comp ts).1 = .error (.priceUnavailable u) ∧
        oracle.historical u comp.pick_window_start = none := by
  intro ts
  induction ts with
  | nil =>
    intro t ht
    cases ht
  | cons a as ih =>
    intro t ht hnone
    cases ha : oracle.historical a comp.pick_window_start with
    | none =>
      exact ⟨a, by simp [fetchJoinStockData, hbf, ha], ha⟩
    | some b =>
      rcases List.mem_cons.mp ht with rfl | hmem
      · rw [ha] at hnone
        cases hnone
      · obtain ⟨u, hu1, hu2⟩ := ih t hmem hnone
        refine ⟨u, ?_, hu2⟩
        simp [fetchJoinStockData, hbf, ha, hu1, Except.map]

/-- Helper: the string-level ticker sanitization loop only ever fails
with an invalidTickerFormat error. -/
theorem sanitizeTickers_error_shape :
    ∀ ts : List String, ∀ e : ApiError,
      sanitizeTickers ts = .error e → e = .invalidTickerFormat := by
  intro ts
  induction ts with
  | nil =>
    intro e h
    simp [sanitizeTickers] at h
  | cons a as ih =>
    intro e h
    cases hv : validateStringInput a 10 with
    | none =>
      simp [sanitizeTickers, hv] at h
      exact h.symm
    | some s =>
      cases hs : sanitizeTickers as with
      | error e2 =>
        simp [sanitizeTickers, hv, hs] at h
        rw [← h]
        exact ih e2 hs
      | ok rest =>
        simp [sanitizeTickers, hv, hs] at h

/-- Helper: when the edit tail fails with PriceUnavailable for a
ticker, that ticker has no historical price at the window start and
no persisted row belongs to it. -/
theorem editApplyChanges_priceUnavailable (oracle : PriceOracle)
    (comp : Competition) (toAdd toRemove : List String) (t : String)
    (he : (editApplyChanges oracle comp toAdd toRemove).result =
      .error (.priceUnavailable t)) :
    oracle.historical t comp.pick_window_start = none ∧
    ∀ row ∈ (editApplyChanges oracle comp toAdd toRemove).insertedStocks,
      row.ticker ≠ t := by
  rcases hv : validateTickersWithAdapter oracle toAdd with ⟨v1, n⟩
  cases v1 with
  | error e1 =>
    obtain ⟨u, hu⟩ := validateTickersWithAdapter_error_shape oracle toAdd e1
      (by rw [hv])
    subst hu
    simp only [editApplyChanges, hv] at he
    cases he
  | ok u =>
    rcases hr : editInsertLoop oracle (decide (comp.backfill_mode ≠ 0))
        comp.pick_window_start toAdd with ⟨r1, m, rows⟩
    cases r1 with
    | ok w =>
      simp only [editApplyChanges, hv, hr] at he
      cases he
    | error e2 =>
      simp only [editApplyChanges, hv, hr] at he ⊢
      obtain rfl : e2 = .priceUnavailable t := by injection he
      have hloop := editInsertLoop_priceUnavailable oracle
        (decide (comp.backfill_mode ≠ 0)) comp.pick_window_start toAdd t
        (by rw [hr])
      refine ⟨hloop.1, ?_⟩
      intro row hrow
      apply hloop.2 row
      rw [hr]
      exact hrow

/-- Helper: when the edit handler fails with PriceUnavailable for a
ticker, that ticker has no historical price at the window start and
no persisted row belongs to it. -/
theorem editHandler_priceUnavailable (oracle : PriceOracle) (nowMs : Int)
    (comp : Competition) (currentTickers : List String)
    (tickers : List String) (t : String)
    (he : (editHandler oracle nowMs (some (comp, currentTickers)) tickers).result =
      .error (.priceUnavailable t)) :
    oracle.historical t comp.pick_window_start = none ∧
    ∀ row ∈ (editHandler oracle nowMs (some (comp, currentTickers))
        tickers).insertedStocks, row.ticker ≠ t := by
  by_cases h1 : tickers = []
  · simp [editHandler, h1] at he
  · by_cases h2 : tickers.length > 10
    · simp [editHandler, h1, h2] at he
    · cases hs : sanitizeTickers tickers with
      | error e0 =>
        have he0 := sanitizeTickers_error_shape tickers e0 hs
        subst he0
        simp [editHandler, h1, h2, hs] at he
      | ok st =>
        by_cases h3 : st.Nodup
        case neg =>
          simp [editHandler, h1, h2, hs, h3] at he
        case pos =>
          by_cases h4 : isCompetitionLocked nowMs comp = true
          · simp [editHandler, h1, h2, hs, h3, h4] at he
          · have hred : editHandler oracle nowMs (some (comp, currentTickers))
                tickers =
                editApplyChanges oracle comp
                  (st.filter (fun x => ! currentTickers.contains x))
                  (currentTickers.filter (fun x => ! st.contains x)) := by
              simp [editHandler, h1, h2, hs, h3, h4]
            rw [hred] at he ⊢
            exact editApplyChanges_priceUnavailable oracle comp _ _ t he

/-- Oracle for the C4 counterexample: both tickers have current
prices, only the first has a historical price. -/
def oracleC4 : PriceOracle :=
  ⟨fun t => if t = "AAA" then some 100 else some 50,
   fun t _ => if t = "AAA" then some 80 else none⟩

/-- Unlocked backfill competition used by the C4 counterexample. -/
def compC4 : Competition := ⟨0, 100, 1, 0⟩

/-- C4 counterexample: an edit on a backfill competition that adds two
tickers, where the second has no historical price, fails with
PriceUnavailable but has already persisted the first portfolio stock
row, so the failure does not leave the records unmodified. -/
theorem c4_counterexample :
    (editHandler oracleC4 50 (some (compC4, [])) ["AAA", "BBB"]).result =
      .error (.priceUnavailable "BBB") ∧
    (editHandler oracleC4 50 (some (compC4, [])) ["AAA", "BBB"]).insertedStocks.map
      StockData.ticker = ["AAA"] := by
  refine ⟨by decide, by decide⟩

/-- C4 amended: on the join path a failed historical lookup blocks all
persistence, and the backfill price loop fails with PriceUnavailable
whenever some requested ticker has no historical price; on the edit
path a PriceUnavailable failure means the failing ticker has no
historical price and no row for it was persisted, though rows for
tickers added earlier in the same request have already been inserted
and remain. -/
theorem c4_amended_blocked_persistence (oracle : PriceOracle) (nowMs : Int)
    (comp : Competition) (namesLower currentTickers : List String)
    (name : String) (tickers fetchTickers : List String)
    (hbf : comp.backfill_mode ≠ 0) :
    (∀ e : ApiError,
      (joinHandler oracle nowMs (some comp) namesLower name tickers).result =
        .error e →
      (joinHandler oracle nowMs (some comp) namesLower name
        tickers).insertedParticipant = none ∧
      (joinHandler oracle nowMs (some comp) namesLower name
        tickers).insertedStocks = []) ∧
    (∀ t ∈ fetchTickers, oracle.historical t comp.pick_window_start = none →
      ∃ u, (fetchJoinStockData oracle comp fetchTickers).1 =
          .error (.priceUnavailable u) ∧
        oracle.historical u comp.pick_window_start = none) ∧
    (∀ t : String,
      (editHandler oracle nowMs (some (comp, currentTickers)) tickers).result =
        .error (.priceUnavailable t) →
      oracle.historical t comp.pick_window_start = none ∧
      ∀ row ∈ (editHandler oracle nowMs (some (comp, currentTickers))
          tickers).insertedStocks, row.ticker ≠ t) := by
  refine ⟨?_, ?_, ?_⟩
  · intro e he
    rcases joinHandler_ok_or_clean oracle nowMs (some comp) namesLower name
        tickers with hok | hclean
    · rw [he] at hok
      cases hok
    · exact hclean
  · exact fun t ht hnone =>
      fetchJoinStockData_priceUnavailable oracle comp hbf fetchTickers t ht hnone
  · exact fun t he =>
      editHandler_priceUnavailable oracle nowMs comp currentTickers tickers t he

/-- Witness for C4 amended at the concrete counterexample data. -/
theorem c4_amended_blocked_persistence_witness :
    compC4.backfill_mode ≠ 0 ∧
    oracleC4.historical "BBB" compC4.pick_window_start = none ∧
    ∀ row ∈ (editHandler oracleC4 50 (some (compC4, []))
        ["AAA", "BBB"]).insertedStocks, row.ticker ≠ "BBB" := by
  have h := (c4_amended_blocked_persistence oracleC4 50 compC4 [] [] "x"
    ["AAA", "BBB"] [] (by decide)).2.2 "BBB" (by decide)
  exact ⟨by decide, h.1, h.2⟩

/-- C8: a join or edit request whose ticker list is empty or has more
than 10 entries fails with a validation error, performs zero price
adapter calls, and persists or removes nothing. -/
theorem c8_size_validated_first (oracle : PriceOracle) (nowMs : Int)
    (compOpt : Option Competition) (partOpt : Option (Competition × List String))
    (namesLower : List String) (name : String) (tickers : List String)
    (h : tickers = [] ∨ 10 < tickers.length) :
    isValidationError
      (joinHandler oracle nowMs compOpt namesLower name tickers).result = true ∧
    (joinHandler oracle nowMs compOpt namesLower name tickers).adapterCalls = 0 ∧
    (joinHandler oracle nowMs compOpt namesLower name
      tickers).insertedParticipant = none ∧
    (joinHandler oracle nowMs compOpt namesLower name tickers).insertedStocks = [] ∧
    isValidationError (editHandler oracle nowMs partOpt tickers).result = true ∧
    (editHandler oracle nowMs partOpt tickers).adapterCalls = 0 ∧
    (editHandler oracle nowMs partOpt tickers).insertedStocks = [] ∧
    (editHandler oracle nowMs partOpt tickers).removedTickers = [] := by
  rcases h with rfl | h
  · simp [joinHandler, editHandler, isValidationError]
  · have hne : tickers ≠ [] := by
      intro he
      rw [he] at h
      simp at h
    by_cases hn : name = "" <;>
      simp [joinHandler, editHandler, hn, hne, h, isValidationError]

/-- Witness for C8 at an 11 ticker request. -/
theorem c8_size_validated_first_witness :
    isValidationError
      (joinHandler ⟨fun _ => none, fun _ _ => none⟩ 0 none [] "x"
        ["A", "B", "C", "D", "E", "F", "G", "H", "I", "J", "K"]).result = true ∧
    (joinHandler ⟨fun _ => none, fun _ _ => none⟩ 0 none [] "x"
      ["A", "B", "C", "D", "E", "F", "G", "H", "I", "J", "K"]).adapterCalls = 0 ∧
    (editHandler ⟨fun _ => none, fun _ _ => none⟩ 0 none
      ["A", "B", "C", "D", "E", "F", "G", "H", "I", "J", "K"]).insertedStocks = [] := by
  have h := c8_size_validated_first ⟨fun _ => none, fun _ _ => none⟩ 0 none none
    [] "x" ["A", "B", "C", "D", "E", "F", "G", "H", "I", "J", "K"]
    (Or.inr (by decide))
  exact ⟨h.1, h.2.1, h.2.2.2.2.2.2.1⟩

end HotStock
